import Mathlib

/-!
# goexpr: the recursive expression evaluator of `eval.go`

A shallow embedding of `Evaluate`, `evaluate`, `evaluateIdent`,
`evaluateBinary` and `evaluateCallExpr`.

Modelling choices.

* `float64` is a type parameter `α`; its zero value and the four arithmetic
  operations used by the code are fields of `Runtime`.
* A Go `error` is either made by `fmt.Errorf` inside this package (its
  message is kept) or comes from outside the package (a callable, or
  `strconv.ParseFloat`); the latter are values of a type parameter `ε`.
* A function returns the pair `(value, err)`; `err = none` is Go's `nil`.
  A failed non-comma-ok type assertion is a run-time panic, which is a
  separate outcome: the function does not return.
* Callables are opaque and may have side effects. They are functions on a
  world state `σ` that the evaluator threads through, in program order.
* Map lookups are functions into `Option`; pointers to nodes are non-nil,
  the nil interface value is the node `Node.nil`.
-/

namespace Goexpr

/-- A Go `error` value: one built by `fmt.Errorf` in this package, with its
message, or an error value produced outside the package. -/
inductive GoError (ε : Type) where
  | errorf (msg : String)
  | foreign (e : ε)
  deriving DecidableEq, Repr

/-- The text of an error built by `fmt.Errorf`; errors from outside the
package carry no text known to the evaluator. -/
def GoError.message {ε : Type} : GoError ε → Option String
  | .errorf msg => some msg
  | .foreign _ => none

/-- The type `token.Token` of `go/token` is an integer type. -/
abbrev Token := Int

namespace token

/-- The constant `token.ADD`. -/
def ADD : Token := 12
/-- The constant `token.SUB`. -/
def SUB : Token := 13
/-- The constant `token.MUL`. -/
def MUL : Token := 14
/-- The constant `token.QUO`. -/
def QUO : Token := 15
/-- The constant `token.REM`. -/
def REM : Token := 16

end token

/-- The values of the interface `ast.Node` that the evaluator can meet:
the nil interface, the five node types of the type switch with the fields
the code reads, and every other implementation of the interface. -/
inductive Node where
  | nil
  | ident (name : String)
  | binary (x : Node) (op : Token) (y : Node)
  | paren (x : Node)
  | basicLit (value : String)
  | call (fn : Node) (args : List Node)
  | other (kind : String)
  deriving Repr

/-- The run-time panics the code can raise by itself. -/
inductive Panic where
  | interfaceConversion
  | nilDereference
  deriving DecidableEq, Repr

/-- What a call of one of the functions does: it returns the pair
`(value, err)`, or it panics. -/
inductive Result (α ε : Type) where
  | ret (value : α) (err : Option (GoError ε))
  | panic (p : Panic)
  deriving DecidableEq, Repr

/-- The type `map[string]float64`, by its lookup. -/
abbrev Scope (α : Type) := String → Option α

/-- The type `FunctionEvaluator`: `func([]float64)(float64, error)`, acting
on the world state. -/
abbrev FunctionEvaluator (α ε σ : Type) := List α → σ → (α × Option (GoError ε)) × σ

/-- The type `map[string]FunctionEvaluator`, by its lookup. -/
abbrev Functions (α ε σ : Type) := String → Option (FunctionEvaluator α ε σ)

/-- What the code takes from the language and its standard library:
`float64` arithmetic, `strconv.ParseFloat(_, 64)`, `Token.String`, and the
`fmt` renderings used in the error messages. -/
structure Runtime (α ε σ : Type) where
  zero : α
  add : α → α → α
  sub : α → α → α
  mul : α → α → α
  quo : α → α → α
  parseFloat : String → α × Option (GoError ε)
  tokenString : Token → String
  fmtScope : Scope α → String
  fmtFunctions : Functions α ε σ → String
  fmtNode : Node → String
  fmtType : Node → String

/-- The state of the loop over `Args` when it is left: all values, the
first error, or a panic. -/
inductive ArgsResult (α ε : Type) where
  | values (vs : List α)
  | failed (err : GoError ε)
  | panicked (p : Panic)
  deriving DecidableEq, Repr

section Evaluator

variable {α ε σ : Type}

/-- The function `evaluateIdent`. -/
def evaluateIdent (rt : Runtime α ε σ) (name : String) (scope : Scope α) : Result α ε :=
  match scope name with
  | none =>
    .ret rt.zero (some (.errorf ("no value for " ++ name ++ " in scope " ++ rt.fmtScope scope)))
  | some value => .ret value none

/-- The function `evaluateBinary`; `evalX` and `evalY` are the calls
`evaluate(node.X, scope, functions)` and `evaluate(node.Y, scope, functions)`. -/
def evaluateBinary (rt : Runtime α ε σ) (op : Token)
    (evalX evalY : σ → Result α ε × σ) (st : σ) : Result α ε × σ :=
  match evalX st with
  | (.panic p, st1) => (.panic p, st1)
  | (.ret _ (some err), st1) => (.ret rt.zero (some err), st1)
  | (.ret lValue none, st1) =>
    match evalY st1 with
    | (.panic p, st2) => (.panic p, st2)
    | (.ret _ (some err), st2) => (.ret rt.zero (some err), st2)
    | (.ret rValue none, st2) =>
      if op = token.ADD then (.ret (rt.add lValue rValue) none, st2)
      else if op = token.SUB then (.ret (rt.sub lValue rValue) none, st2)
      else if op = token.MUL then (.ret (rt.mul lValue rValue) none, st2)
      else if op = token.QUO then (.ret (rt.quo lValue rValue) none, st2)
      else
        (.ret rt.zero
          (some (.errorf ("unsupported binary operation: " ++ rt.tokenString op))), st2)

/-- The function `evaluateCallExpr`; `fn` is `node.Fun`. -/
def evaluateCallExpr (rt : Runtime α ε σ) (fn : Node) (functions : Functions α ε σ)
    (argValues : List α) (st : σ) : Result α ε × σ :=
  match fn with
  | .ident functionName =>
    match functions functionName with
    | none =>
      (.ret rt.zero
        (some (.errorf ("no function for " ++ functionName ++ " in functions "
          ++ rt.fmtFunctions functions))), st)
    | some function =>
      match function argValues st with
      | ((value, err), st1) => (.ret value err, st1)
  | _ => (.panic .interfaceConversion, st)

mutual

/-- The function `evaluate`. -/
def evaluate (rt : Runtime α ε σ) (scope : Scope α) (functions : Functions α ε σ) :
    Node → σ → Result α ε × σ
  | .ident name, st => (evaluateIdent rt name scope, st)
  | .binary x op y, st =>
    evaluateBinary rt op (evaluate rt scope functions x) (evaluate rt scope functions y) st
  | .paren x, st => evaluate rt scope functions x st
  | .basicLit value, st =>
    match rt.parseFloat value with
    | (v, err) => (.ret v err, st)
  | .call fn args, st =>
    match evaluateArgs rt scope functions args st with
    | (.values argValues, st1) => evaluateCallExpr rt fn functions argValues st1
    | (.failed err, st1) => (.ret rt.zero (some err), st1)
    | (.panicked p, st1) => (.panic p, st1)
  | .nil, st =>
    (.ret rt.zero (some (.errorf ("unsupported node " ++ rt.fmtNode .nil
      ++ " (type " ++ rt.fmtType .nil ++ ")"))), st)
  | .other kind, st =>
    (.ret rt.zero (some (.errorf ("unsupported node " ++ rt.fmtNode (.other kind)
      ++ " (type " ++ rt.fmtType (.other kind) ++ ")"))), st)

/-- The loop `for i, arg := range node.(*ast.CallExpr).Args` of `evaluate`. -/
def evaluateArgs (rt : Runtime α ε σ) (scope : Scope α) (functions : Functions α ε σ) :
    List Node → σ → ArgsResult α ε × σ
  | [], st => (.values [], st)
  | arg :: rest, st =>
    match evaluate rt scope functions arg st with
    | (.panic p, st1) => (.panicked p, st1)
    | (.ret _ (some err), st1) => (.failed err, st1)
    | (.ret v none, st1) =>
      match evaluateArgs rt scope functions rest st1 with
      | (.values vs, st2) => (.values (v :: vs), st2)
      | (.failed err, st2) => (.failed err, st2)
      | (.panicked p, st2) => (.panicked p, st2)

end

/-- The type `Expression`, of which the code reads the field `Ast`. -/
structure Expression where
  Ast : Node

/-- The function `Evaluate`; `parsed` is a pointer, `none` is the nil
pointer. -/
def Evaluate (rt : Runtime α ε σ) (parsed : Option Expression) (scope : Scope α)
    (functions : Functions α ε σ) (st : σ) : Result α ε × σ :=
  match parsed with
  | none => (.panic .nilDereference, st)
  | some expression =>
    match evaluate rt scope functions expression.Ast st with
    | (.panic p, st1) => (.panic p, st1)
    | (.ret _ (some err), st1) => (.ret rt.zero (some err), st1)
    | (.ret result none, st1) => (.ret result none, st1)

/-- The arguments `args`, evaluated one after the other starting in the state
`st`, all return without error, with the values `vs` in the same order,
and leave the state `st1`. -/
inductive ArgsSucceed (rt : Runtime α ε σ) (scope : Scope α) (functions : Functions α ε σ) :
    List Node → σ → List α → σ → Prop where
  | nil (st : σ) : ArgsSucceed rt scope functions [] st [] st
  | cons {arg : Node} {rest : List Node} {v : α} {vs : List α} {st st1 st2 : σ}
      (harg : evaluate rt scope functions arg st = (.ret v none, st1))
      (hrest : ArgsSucceed rt scope functions rest st1 vs st2) :
      ArgsSucceed rt scope functions (arg :: rest) st (v :: vs) st2

/-- The text `part` occurs in the text `msg`. -/
def Mentions (msg part : String) : Prop := part.data <:+: msg.data

instance (msg part : String) : Decidable (Mentions msg part) :=
  inferInstanceAs (Decidable (part.data <:+: msg.data))

end Evaluator

/-! ## Concrete inputs

The evaluator run over the integers, with a world state that records the
invocations of the callables. -/

/-- Reads a non-empty string of decimal digits; anything else is a syntax
error of the number parser. -/
def parseDigits (s : String) : Int × Option (GoError String) :=
  if s.data ≠ [] ∧ s.data.all Char.isDigit = true then
    (Int.ofNat (s.data.foldl (fun n c => 10 * n + (c.toNat - 48)) 0), none)
  else
    (0, some (.foreign ("strconv.ParseFloat: parsing \"" ++ s ++ "\": invalid syntax")))

/-- Integer arithmetic in the place of `float64`; maps are rendered as the
empty map, which is what `fmt` prints for the empty scope and table. -/
def intRuntime (σ : Type) : Runtime Int String σ where
  zero := 0
  add := fun a b => a + b
  sub := fun a b => a - b
  mul := fun a b => a * b
  quo := fun a b => a / b
  parseFloat := parseDigits
  tokenString := fun t =>
    if t = token.ADD then "+" else if t = token.SUB then "-"
    else if t = token.MUL then "*" else if t = token.QUO then "/"
    else if t = token.REM then "%" else "token(" ++ toString t ++ ")"
  fmtScope := fun _ => "map[]"
  fmtFunctions := fun _ => "map[]"
  fmtNode := fun _ => "<nil>"
  fmtType := fun _ => "<nil>"

/-- The record of the invocations made so far: name and argument list. -/
abbrev Log := List (String × List Int)

/-- The empty scope. -/
def emptyScope : Scope Int := fun _ => none

/-- The scope `{a: 3, b: 7}`. -/
def abScope : Scope Int := fun n => if n = "a" then some 3 else if n = "b" then some 7 else none

/-- The empty function table. -/
def emptyTable : Functions Int String Log := fun _ => none

/-- A callable `max`: the greater of two arguments, an error of its own on
any other number of arguments; it records each invocation. -/
def maxFn : FunctionEvaluator Int String Log := fun args log =>
  match args with
  | [x, y] => ((max x y, none), log ++ [("max", args)])
  | _ => ((0, some (.foreign "max: want 2 arguments")), log ++ [("max", args)])

/-- The function table `{max: maxFn}`. -/
def maxTable : Functions Int String Log := fun n => if n = "max" then some maxFn else none

/-- A callable that reports an error of its own together with the number
`5`; it records each invocation. -/
def failFn : FunctionEvaluator Int String Log := fun args log =>
  ((5, some (.foreign "fail: no result")), log ++ [("fail", args)])

/-- The function table `{max: maxFn, fail: failFn}`. -/
def maxFailTable : Functions Int String Log := fun n =>
  if n = "max" then some maxFn else if n = "fail" then some failFn else none

/-! ## Notions used in the statements -/

/-- The text `msg` starts with the text `start`. -/
def StartsWith (msg start : String) : Prop := start.data <+: msg.data

instance (msg start : String) : Decidable (StartsWith msg start) :=
  inferInstanceAs (Decidable (start.data <+: msg.data))

/-- The node is of one of the five kinds that the type switch of `evaluate`
names. -/
def Node.known : Node → Bool
  | .ident _ => true
  | .binary _ _ _ => true
  | .paren _ => true
  | .basicLit _ => true
  | .call _ _ => true
  | .nil => false
  | .other _ => false

/-- The message "unsupported node NODE (type TYPE)". -/
def unsupportedMessage {α ε σ : Type} (rt : Runtime α ε σ) (node : Node) : String :=
  "unsupported node " ++ rt.fmtNode node ++ " (type " ++ rt.fmtType node ++ ")"

/-! ## The special values of `float64`

The classes of IEEE 754 values and the four operations on them. Finite
values are rationals and finite arithmetic is exact: rounding, overflow and
underflow are not modelled. -/

/-- A `float64` value: a NaN, an infinity or a zero with its sign bit, or a
finite number other than zero. -/
inductive Float64 where
  | nan
  | inf (neg : Bool)
  | zero (neg : Bool)
  | finite (q : ℚ)
  deriving DecidableEq

namespace Float64

/-- The sign bit of a finite number. -/
def signBit (q : ℚ) : Bool := decide (q < 0)

/-- The finite value of a rational; an exact zero result is `+0`. -/
def ofRat (q : ℚ) : Float64 := if q = 0 then zero false else finite q

/-- The value is a zero, of either sign. -/
def isZero : Float64 → Bool
  | zero _ => true
  | _ => false

/-- The value is a number other than zero: finite or infinite, not a NaN. -/
def isNonzeroNumber : Float64 → Bool
  | finite q => decide (q ≠ 0)
  | inf _ => true
  | _ => false

/-- Unary minus. -/
def neg : Float64 → Float64
  | nan => nan
  | inf s => inf (!s)
  | zero s => zero (!s)
  | finite q => finite (-q)

/-- The operation `+`. -/
def add : Float64 → Float64 → Float64
  | nan, _ => nan
  | _, nan => nan
  | inf s, inf t => if s = t then inf s else nan
  | inf s, _ => inf s
  | _, inf t => inf t
  | zero s, zero t => zero (s && t)
  | zero _, finite q => finite q
  | finite p, zero _ => finite p
  | finite p, finite q => ofRat (p + q)

/-- The operation `-`. -/
def sub (a b : Float64) : Float64 := add a (neg b)

/-- The operation `*`. -/
def mul : Float64 → Float64 → Float64
  | nan, _ => nan
  | _, nan => nan
  | inf _, zero _ => nan
  | zero _, inf _ => nan
  | inf s, inf t => inf (xor s t)
  | inf s, finite q => inf (xor s (signBit q))
  | finite p, inf t => inf (xor (signBit p) t)
  | zero s, zero t => zero (xor s t)
  | zero s, finite q => zero (xor s (signBit q))
  | finite p, zero t => zero (xor (signBit p) t)
  | finite p, finite q => finite (p * q)

/-- The operation `/`: a zero divisor gives an infinity for a dividend that
is a number other than zero, and a NaN for a zero dividend. -/
def quo : Float64 → Float64 → Float64
  | nan, _ => nan
  | _, nan => nan
  | inf _, inf _ => nan
  | zero _, zero _ => nan
  | inf s, zero t => inf (xor s t)
  | inf s, finite q => inf (xor s (signBit q))
  | zero s, inf t => zero (xor s t)
  | zero s, finite q => zero (xor s (signBit q))
  | finite p, zero t => inf (xor (signBit p) t)
  | finite p, inf t => zero (xor (signBit p) t)
  | finite p, finite q => finite (p / q)

end Float64

/-- The evaluator over `Float64`; literals are strings of decimal digits. -/
def ieeeRuntime (σ : Type) : Runtime Float64 String σ where
  zero := .zero false
  add := Float64.add
  sub := Float64.sub
  mul := Float64.mul
  quo := Float64.quo
  parseFloat := fun s =>
    match parseDigits s with
    | (n, none) => (Float64.ofRat n, none)
    | (_, some err) => (.zero false, some err)
  tokenString := (intRuntime σ).tokenString
  fmtScope := fun _ => "map[]"
  fmtFunctions := fun _ => "map[]"
  fmtNode := fun _ => "<nil>"
  fmtType := fun _ => "<nil>"

/-- The scope `{x: 1, y: 0}`. -/
def xyScope : Scope Float64 := fun n =>
  if n = "x" then some (.finite 1) else if n = "y" then some (.zero false) else none

/-! ## Notions on trees -/

section Trees

variable {α ε σ : Type}

/-- The function table in which every callable records its invocation, name
and arguments, at the end of the record, and then runs. -/
def traced (functions : Functions α ε σ) : Functions α ε (σ × List (String × List α)) :=
  fun name =>
    match functions name with
    | none => none
    | some f =>
      some (fun args w =>
        match f args w.1 with
        | (r, st1) => (r, (st1, w.2 ++ [(name, args)])))

mutual

/-- The callee names of the call nodes of the tree in left-to-right
post-order: arguments before their call, left operand before right
operand. -/
def Node.callees : Node → List String
  | .binary x _ y => x.callees ++ y.callees
  | .paren x => x.callees
  | .call (.ident name) args => calleesArgs args ++ [name]
  | .call _ args => calleesArgs args
  | _ => []

/-- The callee names of the call nodes of a list of trees, tree after
tree. -/
def calleesArgs : List Node → List String
  | [] => []
  | arg :: rest => arg.callees ++ calleesArgs rest

end

mutual

/-- The number of call nodes of the tree, callee expressions included. -/
def Node.calls : Node → Nat
  | .binary x _ y => x.calls + y.calls
  | .paren x => x.calls
  | .call fn args => fn.calls + callsArgs args + 1
  | _ => 0

/-- The number of call nodes of a list of trees. -/
def callsArgs : List Node → Nat
  | [] => 0
  | arg :: rest => arg.calls + callsArgs rest

end

/-- The tree is built from identifier, literal, parenthesized and binary
nodes only. -/
def Node.simple : Node → Bool
  | .ident _ => true
  | .basicLit _ => true
  | .paren x => x.simple
  | .binary x _ y => x.simple && y.simple
  | _ => false

/-- The operator is one of `+`, `-`, `*`, `/`. -/
def arithmeticOp (op : Token) : Bool :=
  decide (op = token.ADD) || decide (op = token.SUB) || decide (op = token.MUL)
    || decide (op = token.QUO)

mutual

/-- Every identifier of the tree is a key of the scope, every literal text
of the tree parses without error, and every binary operator of the tree is
one of `+`, `-`, `*`, `/`. -/
def Node.sound (rt : Runtime α ε σ) (scope : Scope α) : Node → Bool
  | .ident name => (scope name).isSome
  | .basicLit text => (rt.parseFloat text).2.isNone
  | .paren x => x.sound rt scope
  | .binary x op y => x.sound rt scope && y.sound rt scope && arithmeticOp op
  | .call fn args => fn.sound rt scope && soundArgs rt scope args
  | _ => true

/-- The same for a list of trees. -/
def soundArgs (rt : Runtime α ε σ) (scope : Scope α) : List Node → Bool
  | [] => true
  | arg :: rest => arg.sound rt scope && soundArgs rt scope rest

end

mutual

/-- The names of the identifier nodes of the tree, callee expressions
included. -/
def Node.names : Node → List String
  | .ident name => [name]
  | .binary x _ y => x.names ++ y.names
  | .paren x => x.names
  | .call fn args => fn.names ++ namesArgs args
  | _ => []

/-- The names of the identifier nodes of a list of trees. -/
def namesArgs : List Node → List String
  | [] => []
  | arg :: rest => arg.names ++ namesArgs rest

end

mutual

/-- The greatest number of calls of `evaluate` nested inside one call of
`evaluate` on the tree: every operand, wrapped expression and argument is
one call deeper than its node. -/
def Node.depth : Node → Nat
  | .binary x _ y => max (x.depth + 1) (y.depth + 1)
  | .paren x => x.depth + 1
  | .call _ args => depthArgs args
  | _ => 0

/-- The same for the arguments of a call node: `0` when there is none. -/
def depthArgs : List Node → Nat
  | [] => 0
  | arg :: rest => max (arg.depth + 1) (depthArgs rest)

end

/-- The function `evaluateBinary` when the calls of `evaluate` on the
operands may run out of their budget of nested calls (`none`). -/
def evaluateBinaryFuel (rt : Runtime α ε σ) (op : Token)
    (evalX evalY : σ → Option (Result α ε × σ)) (st : σ) : Option (Result α ε × σ) :=
  match evalX st with
  | none => none
  | some (.panic p, st1) => some (.panic p, st1)
  | some (.ret _ (some err), st1) => some (.ret rt.zero (some err), st1)
  | some (.ret lValue none, st1) =>
    match evalY st1 with
    | none => none
    | some (.panic p, st2) => some (.panic p, st2)
    | some (.ret _ (some err), st2) => some (.ret rt.zero (some err), st2)
    | some (.ret rValue none, st2) =>
      if op = token.ADD then some (.ret (rt.add lValue rValue) none, st2)
      else if op = token.SUB then some (.ret (rt.sub lValue rValue) none, st2)
      else if op = token.MUL then some (.ret (rt.mul lValue rValue) none, st2)
      else if op = token.QUO then some (.ret (rt.quo lValue rValue) none, st2)
      else
        some (.ret rt.zero
          (some (.errorf ("unsupported binary operation: " ++ rt.tokenString op))), st2)

/-- The loop over `Args` of `evaluate` when the calls `eval` of `evaluate`
on the arguments may run out of their budget of nested calls. -/
def evaluateArgsFuel (eval : Node → σ → Option (Result α ε × σ)) :
    List Node → σ → Option (ArgsResult α ε × σ)
  | [], st => some (.values [], st)
  | arg :: rest, st =>
    match eval arg st with
    | none => none
    | some (.panic p, st1) => some (.panicked p, st1)
    | some (.ret _ (some err), st1) => some (.failed err, st1)
    | some (.ret v none, st1) =>
      match evaluateArgsFuel eval rest st1 with
      | none => none
      | some (.values vs, st2) => some (.values (v :: vs), st2)
      | some (.failed err, st2) => some (.failed err, st2)
      | some (.panicked p, st2) => some (.panicked p, st2)

/-- The function `evaluate` as the source writes it, a function that calls
itself, run with a budget `fuel` of nested calls: each call of `evaluate`
takes one unit, the calls it makes get what is left, and a call without
budget gives `none`. -/
def evaluateFuel (rt : Runtime α ε σ) (scope : Scope α) (functions : Functions α ε σ) :
    Nat → Node → σ → Option (Result α ε × σ)
  | 0, _, _ => none
  | _ + 1, .ident name, st => some (evaluateIdent rt name scope, st)
  | fuel + 1, .binary x op y, st =>
    evaluateBinaryFuel rt op (evaluateFuel rt scope functions fuel x)
      (evaluateFuel rt scope functions fuel y) st
  | fuel + 1, .paren x, st => evaluateFuel rt scope functions fuel x st
  | _ + 1, .basicLit value, st =>
    match rt.parseFloat value with
    | (v, err) => some (.ret v err, st)
  | fuel + 1, .call fn args, st =>
    match evaluateArgsFuel (evaluateFuel rt scope functions fuel) args st with
    | none => none
    | some (.values argValues, st1) => some (evaluateCallExpr rt fn functions argValues st1)
    | some (.failed err, st1) => some (.ret rt.zero (some err), st1)
    | some (.panicked p, st1) => some (.panic p, st1)
  | _ + 1, .nil, st =>
    some (.ret rt.zero (some (.errorf ("unsupported node " ++ rt.fmtNode .nil
      ++ " (type " ++ rt.fmtType .nil ++ ")"))), st)
  | _ + 1, .other kind, st =>
    some (.ret rt.zero (some (.errorf ("unsupported node " ++ rt.fmtNode (.other kind)
      ++ " (type " ++ rt.fmtType (.other kind) ++ ")"))), st)

/-- The value and the state of a call that returns without error. -/
def outcome : Result α ε × σ → Option (α × σ)
  | (.ret v none, st) => some (v, st)
  | _ => none

/-- The values and the state of an argument loop that runs to its end. -/
def outcomeArgs : ArgsResult α ε × σ → Option (List α × σ)
  | (.values vs, st) => some (vs, st)
  | _ => none

end Trees

/-! ## Callables without side effects -/

/-- The callables `max` and `min` on two arguments, on a world without
state. -/
def pureTable : Functions Int String Unit := fun n =>
  if n = "max" then
    some (fun args st =>
      match args with
      | [x, y] => ((max x y, none), st)
      | _ => ((0, some (.foreign "max: want 2 arguments")), st))
  else if n = "min" then
    some (fun args st =>
      match args with
      | [x, y] => ((min x y, none), st)
      | _ => ((0, some (.foreign "min: want 2 arguments")), st))
  else none

/-- The tree of `min(max(a, b), a) + max(a, b)`. -/
def minMaxTree : Node :=
  .binary
    (.call (.ident "min") [.call (.ident "max") [.ident "a", .ident "b"], .ident "a"])
    token.ADD
    (.call (.ident "max") [.ident "a", .ident "b"])

/-- The scope `{a: 3, b: 7, c: 100}`. -/
def abcScope : Scope Int := fun n =>
  if n = "a" then some 3 else if n = "b" then some 7 else if n = "c" then some 100 else none

/-! ## Lemmas on the argument loop -/

section Lemmas

variable {α ε σ : Type}

theorem evaluateArgs_of_argsSucceed (rt : Runtime α ε σ) (scope : Scope α)
    (functions : Functions α ε σ) {args : List Node} {vs : List α} {st st1 : σ}
    (h : ArgsSucceed rt scope functions args st vs st1) :
    evaluateArgs rt scope functions args st = (.values vs, st1) := by
  induction h with
  | nil st => simp [evaluateArgs]
  | cons harg _ ih => simp [evaluateArgs, harg, ih]

theorem evaluateArgs_first_failure (rt : Runtime α ε σ) (scope : Scope α)
    (functions : Functions α ε σ) {pre : List Node} {vs : List α} {st st1 : σ}
    (h : ArgsSucceed rt scope functions pre st vs st1)
    (a : Node) (post : List Node) (v : α) (e : GoError ε) (st2 : σ)
    (ha : evaluate rt scope functions a st1 = (.ret v (some e), st2)) :
    evaluateArgs rt scope functions (pre ++ a :: post) st = (.failed e, st2) := by
  induction h with
  | nil st => simp [evaluateArgs, ha]
  | cons harg _ ih => simp [evaluateArgs, harg, ih ha]

theorem mentions_middle (pre part post : String) : Mentions (pre ++ part ++ post) part := by
  unfold Mentions
  exact ⟨pre.data, post.data, by simp⟩

end Lemmas

/-! ## Binary nodes -/

section Claims

variable {α ε σ : Type}

/-- C1: a binary node with operator `+`, `-`, `*` or `/` whose left operand
returns `l` without error and whose right operand, evaluated next under the
same scope and function table, returns `r` without error, returns without
error the operator of the node applied to `l` and `r` in that order. -/
theorem evaluate_binary_applies_operator (rt : Runtime α ε σ) (scope : Scope α)
    (functions : Functions α ε σ) (x y : Node) (l r : α) (st st1 st2 : σ)
    (hl : evaluate rt scope functions x st = (.ret l none, st1))
    (hr : evaluate rt scope functions y st1 = (.ret r none, st2)) :
    evaluate rt scope functions (.binary x token.ADD y) st = (.ret (rt.add l r) none, st2)
    ∧ evaluate rt scope functions (.binary x token.SUB y) st = (.ret (rt.sub l r) none, st2)
    ∧ evaluate rt scope functions (.binary x token.MUL y) st = (.ret (rt.mul l r) none, st2)
    ∧ evaluate rt scope functions (.binary x token.QUO y) st
        = (.ret (rt.quo l r) none, st2) := by
  refine ⟨?_, ?_, ?_, ?_⟩ <;>
    simp [evaluate, evaluateBinary, hl, hr, token.ADD, token.SUB, token.MUL, token.QUO]

/-- Witness of C1: `b - a` with `{a: 3, b: 7}` is `4`, not `-4`. -/
theorem evaluate_binary_applies_operator_witness :
    evaluate (intRuntime Log) abScope maxTable (.binary (.ident "b") token.SUB (.ident "a")) []
      = (.ret 4 none, []) :=
  (evaluate_binary_applies_operator (intRuntime Log) abScope maxTable
    (.ident "b") (.ident "a") 7 3 [] [] [] (by decide) (by decide)).2.1

/-- C2: when the left operand of a binary node fails with the error `e`, the
binary node fails with `e`, whatever the operator and whatever the right
operand; the state of the world is the one the left operand left, so
nothing in the right operand has run. -/
theorem evaluate_binary_left_error (rt : Runtime α ε σ) (scope : Scope α)
    (functions : Functions α ε σ) (x y : Node) (op : Token) (v : α) (e : GoError ε)
    (st st1 : σ)
    (hl : evaluate rt scope functions x st = (.ret v (some e), st1)) :
    evaluate rt scope functions (.binary x op y) st = (.ret rt.zero (some e), st1) := by
  simp [evaluate, evaluateBinary, hl]

/-- Witness of C2: in `z + max(q)` with nothing in scope the error is the one
for `z`; `max` is not invoked (the record stays empty) and the unbound `q`
is not reported. -/
theorem evaluate_binary_left_error_witness :
    evaluate (intRuntime Log) emptyScope maxTable
        (.binary (.ident "z") token.ADD (.call (.ident "max") [.ident "q"])) []
      = (.ret 0 (some (.errorf "no value for z in scope map[]")), []) :=
  evaluate_binary_left_error (intRuntime Log) emptyScope maxTable (.ident "z")
    (.call (.ident "max") [.ident "q"]) token.ADD 0 _ [] [] (by decide)

/-! ## Identifiers and parentheses -/

/-- C3: an identifier node whose name is a key of the scope returns the
value bound to it, unchanged and without error, whatever the function
table. -/
theorem evaluate_ident_bound (rt : Runtime α ε σ) (scope : Scope α)
    (functions : Functions α ε σ) (name : String) (v : α) (st : σ)
    (hkey : scope name = some v) :
    evaluate rt scope functions (.ident name) st = (.ret v none, st) := by
  simp [evaluate, evaluateIdent, hkey]

/-- Witness of C3: `b` with `{a: 3, b: 7}` is `7`. -/
theorem evaluate_ident_bound_witness :
    evaluate (intRuntime Log) abScope emptyTable (.ident "b") [] = (.ret 7 none, []) :=
  evaluate_ident_bound (intRuntime Log) abScope emptyTable "b" 7 [] (by decide)

/-- C4: an identifier node whose name is not a key of the scope fails with
the error "no value for NAME in scope ...", whose message contains the
name; it does not return without error, with zero or any other value. -/
theorem evaluate_ident_unbound (rt : Runtime α ε σ) (scope : Scope α)
    (functions : Functions α ε σ) (name : String) (st : σ)
    (hkey : scope name = none) :
    evaluate rt scope functions (.ident name) st
        = (.ret rt.zero (some (.errorf
            ("no value for " ++ name ++ " in scope " ++ rt.fmtScope scope))), st)
    ∧ Mentions ("no value for " ++ name ++ " in scope " ++ rt.fmtScope scope) name
    ∧ ∀ (v : α) (st1 : σ), evaluate rt scope functions (.ident name) st ≠ (.ret v none, st1) := by
  have h : evaluate rt scope functions (.ident name) st
      = (.ret rt.zero (some (.errorf
          ("no value for " ++ name ++ " in scope " ++ rt.fmtScope scope))), st) := by
    simp [evaluate, evaluateIdent, hkey]
  refine ⟨h, ?_, ?_⟩
  · have := mentions_middle "no value for " name (" in scope " ++ rt.fmtScope scope)
    simpa [String.append_assoc] using this
  · intro v st1 hv
    rw [h] at hv
    simp at hv

/-- Witness of C4: `z` in the empty scope. -/
theorem evaluate_ident_unbound_witness :
    evaluate (intRuntime Log) emptyScope emptyTable (.ident "z") []
      = (.ret 0 (some (.errorf "no value for z in scope map[]")), []) :=
  (evaluate_ident_unbound (intRuntime Log) emptyScope emptyTable "z" [] (by decide)).1

/-- C5: a parenthesized node returns exactly what the wrapped node returns,
value and error, for every wrapped node: the five kinds, the nil node and
the unsupported kinds. -/
theorem evaluate_paren_transparent (rt : Runtime α ε σ) (scope : Scope α)
    (functions : Functions α ε σ) (x : Node) (st : σ) :
    evaluate rt scope functions (.paren x) st = evaluate rt scope functions x st := by
  simp [evaluate]

/-! ## Call nodes -/

/-- C6: in a call node whose arguments `pre` all return without error and
whose next argument `a` fails with the error `e`, the call fails with `e`.
The state of the world is the one `a` left: the arguments after `a` have
not run, and the callee, which may be any node and any name, registered or
not, is neither looked up nor invoked. -/
theorem evaluate_call_first_failing_argument (rt : Runtime α ε σ) (scope : Scope α)
    (functions : Functions α ε σ) (fn a : Node) (pre post : List Node) (vs : List α)
    (v : α) (e : GoError ε) (st st1 st2 : σ)
    (hpre : ArgsSucceed rt scope functions pre st vs st1)
    (ha : evaluate rt scope functions a st1 = (.ret v (some e), st2)) :
    evaluate rt scope functions (.call fn (pre ++ a :: post)) st
      = (.ret rt.zero (some e), st2) := by
  simp [evaluate, evaluateArgs_first_failure rt scope functions hpre a post v e st2 ha]

/-- Witness of C6: in `max(1, z, max(2, 3), q)` with nothing in scope the
error is the one for `z`; the inner `max` is not invoked, `q` is not
reported, and the outer `max` is not invoked either. -/
theorem evaluate_call_first_failing_argument_witness :
    evaluate (intRuntime Log) emptyScope maxTable
        (.call (.ident "max")
          ([.basicLit "1"] ++ .ident "z"
            :: [.call (.ident "max") [.basicLit "2", .basicLit "3"], .ident "q"])) []
      = (.ret 0 (some (.errorf "no value for z in scope map[]")), []) :=
  evaluate_call_first_failing_argument (intRuntime Log) emptyScope maxTable
    (.ident "max") (.ident "z") [.basicLit "1"]
    [.call (.ident "max") [.basicLit "2", .basicLit "3"], .ident "q"] [1] 0 _ [] [] []
    (.cons
      (by decide : evaluate (intRuntime Log) emptyScope maxTable (.basicLit "1") []
        = (.ret 1 none, []))
      (.nil []))
    (by decide)

/-- C7: a call node whose callee is an identifier that is a key of the
function table and whose arguments all return without error, with values
`vs`, returns what the registered callable returns when invoked once on
`vs`: its value and its error, unchanged. The number of arguments is not
checked. -/
theorem evaluate_call_registered (rt : Runtime α ε σ) (scope : Scope α)
    (functions : Functions α ε σ) (name : String) (f : FunctionEvaluator α ε σ)
    (args : List Node) (vs : List α) (st st1 : σ)
    (hkey : functions name = some f)
    (hargs : ArgsSucceed rt scope functions args st vs st1) :
    evaluate rt scope functions (.call (.ident name) args) st
      = (.ret (f vs st1).1.1 (f vs st1).1.2, (f vs st1).2) := by
  simp [evaluate, evaluateArgs_of_argsSucceed rt scope functions hargs, evaluateCallExpr, hkey]

/-- Witness of C7: `max(a, b)` with `{a: 3, b: 7}` is `7`, after one
invocation of `max` on `[3, 7]`. -/
theorem evaluate_call_registered_witness :
    evaluate (intRuntime Log) abScope maxTable (.call (.ident "max") [.ident "a", .ident "b"]) []
      = (.ret 7 none, [("max", [3, 7])]) :=
  evaluate_call_registered (intRuntime Log) abScope maxTable "max" maxFn
    [.ident "a", .ident "b"] [3, 7] [] [] rfl
    (.cons
      (by decide : evaluate (intRuntime Log) abScope maxTable (.ident "a") []
        = (.ret 3 none, []))
      (.cons
        (by decide : evaluate (intRuntime Log) abScope maxTable (.ident "b") []
          = (.ret 7 none, []))
        (.nil [])))

/-- C8, as stated, fails: `sqrt(z)` with nothing in scope and no function
registered fails with the error for the variable `z`, which does not
mention `sqrt`. -/
theorem evaluate_call_unknown_function_after_argument_error :
    emptyTable "sqrt" = none
    ∧ evaluate (intRuntime Log) emptyScope emptyTable (.call (.ident "sqrt") [.ident "z"]) []
        = (.ret 0 (some (.errorf "no value for z in scope map[]")), [])
    ∧ ¬ Mentions "no value for z in scope map[]" "sqrt" :=
  ⟨rfl, by decide, by decide⟩

/-- C8, amended: a call node whose callee name is not a key of the function
table and whose arguments all return without error fails with the error
"no function for NAME in functions ...", whose message contains the name. -/
theorem evaluate_call_unknown_function (rt : Runtime α ε σ) (scope : Scope α)
    (functions : Functions α ε σ) (name : String) (args : List Node) (vs : List α)
    (st st1 : σ)
    (hkey : functions name = none)
    (hargs : ArgsSucceed rt scope functions args st vs st1) :
    evaluate rt scope functions (.call (.ident name) args) st
        = (.ret rt.zero (some (.errorf
            ("no function for " ++ name ++ " in functions " ++ rt.fmtFunctions functions))), st1)
    ∧ Mentions ("no function for " ++ name ++ " in functions " ++ rt.fmtFunctions functions)
        name := by
  constructor
  · simp [evaluate, evaluateArgs_of_argsSucceed rt scope functions hargs, evaluateCallExpr, hkey]
  · have := mentions_middle "no function for " name (" in functions " ++ rt.fmtFunctions functions)
    simpa [String.append_assoc] using this

/-- Witness of C8, amended: `sqrt(4)` with no function registered. -/
theorem evaluate_call_unknown_function_witness :
    evaluate (intRuntime Log) emptyScope emptyTable (.call (.ident "sqrt") [.basicLit "4"]) []
      = (.ret 0 (some (.errorf "no function for sqrt in functions map[]")), []) :=
  (evaluate_call_unknown_function (intRuntime Log) emptyScope emptyTable "sqrt"
    [.basicLit "4"] [4] [] [] rfl
    (.cons
      (by decide : evaluate (intRuntime Log) emptyScope emptyTable (.basicLit "4") []
        = (.ret 4 none, []))
      (.nil []))).1

/-- The callee of a call node is asserted to be an identifier without a
check: with any other callee, once the arguments have all returned without
error, the call panics. The state is the one the arguments left, so no
callable has been invoked as the callee. -/
theorem evaluate_call_callee_not_ident (rt : Runtime α ε σ) (scope : Scope α)
    (functions : Functions α ε σ) (fn : Node) (args : List Node) (vs : List α) (st st1 : σ)
    (hfn : ∀ name, fn ≠ .ident name)
    (hargs : ArgsSucceed rt scope functions args st vs st1) :
    evaluate rt scope functions (.call fn args) st = (.panic .interfaceConversion, st1) := by
  cases fn with
  | ident name => exact absurd rfl (hfn name)
  | _ => simp [evaluate, evaluateArgs_of_argsSucceed rt scope functions hargs, evaluateCallExpr]

/-! ## Unsupported operators -/

/-- C9, as stated, fails: `z % 2` with nothing in scope fails with the error
for the variable `z`, not with the error for the operator `%`. -/
theorem evaluate_binary_unsupported_operator_after_operand_error :
    evaluate (intRuntime Log) emptyScope emptyTable
        (.binary (.ident "z") token.REM (.basicLit "2")) []
      = (.ret 0 (some (.errorf "no value for z in scope map[]")), [])
    ∧ ¬ Mentions "no value for z in scope map[]" ((intRuntime Log).tokenString token.REM) := by
  decide

/-- C9, amended: a binary node whose operator is not one of `+`, `-`, `*`,
`/` never returns without error, whatever its operands are; when both
operands return without error, it fails with the error "unsupported binary
operation: OP", where OP is the text of the operator. -/
theorem evaluate_binary_unsupported_operator (rt : Runtime α ε σ) (scope : Scope α)
    (functions : Functions α ε σ) (x y : Node) (op : Token) (st : σ)
    (hop : op ≠ token.ADD ∧ op ≠ token.SUB ∧ op ≠ token.MUL ∧ op ≠ token.QUO) :
    (∀ (l r : α) (st1 st2 : σ),
        evaluate rt scope functions x st = (.ret l none, st1) →
        evaluate rt scope functions y st1 = (.ret r none, st2) →
        evaluate rt scope functions (.binary x op y) st
          = (.ret rt.zero
              (some (.errorf ("unsupported binary operation: " ++ rt.tokenString op))), st2))
    ∧ ∀ (v : α) (st1 : σ),
        evaluate rt scope functions (.binary x op y) st ≠ (.ret v none, st1) := by
  obtain ⟨h1, h2, h3, h4⟩ := hop
  constructor
  · intro l r st1 st2 hl hr
    simp [evaluate, evaluateBinary, hl, hr, h1, h2, h3, h4]
  · intro v st1
    rcases hx : evaluate rt scope functions x st with ⟨rx, sx⟩
    rcases rx with ⟨l, _ | ex⟩ | px
    · rcases hy : evaluate rt scope functions y sx with ⟨ry, sy⟩
      rcases ry with ⟨r, _ | ey⟩ | py <;>
        simp [evaluate, evaluateBinary, hx, hy, h1, h2, h3, h4]
    · simp [evaluate, evaluateBinary, hx]
    · simp [evaluate, evaluateBinary, hx]

/-- Witness of C9, amended: `5 % 2`. -/
theorem evaluate_binary_unsupported_operator_witness :
    evaluate (intRuntime Log) emptyScope emptyTable
        (.binary (.basicLit "5") token.REM (.basicLit "2")) []
      = (.ret 0 (some (.errorf "unsupported binary operation: %")), []) :=
  (evaluate_binary_unsupported_operator (intRuntime Log) emptyScope emptyTable
    (.basicLit "5") (.basicLit "2") token.REM [] (by decide)).1 5 2 [] []
    (by decide) (by decide)

/-! ## Callees that are not identifiers -/

/-- C10: the code does not return an error for a callee that is not a plain
identifier. The calls `(max)(1, 2)`, `1()` and `max(1, 2)()` all panic at
the type assertion on the callee; no callable is invoked. -/
theorem evaluate_call_non_ident_callee_panics :
    evaluate (intRuntime Log) emptyScope maxTable
        (.call (.paren (.ident "max")) [.basicLit "1", .basicLit "2"]) []
      = (.panic .interfaceConversion, [])
    ∧ evaluate (intRuntime Log) emptyScope maxTable (.call (.basicLit "1") []) []
      = (.panic .interfaceConversion, [])
    ∧ evaluate (intRuntime Log) emptyScope maxTable
        (.call (.call (.ident "max") [.basicLit "1", .basicLit "2"]) []) []
      = (.panic .interfaceConversion, []) := by
  decide

/-! ## Dispatch, literals and the entry point -/

/-- C11: a node that is not of one of the five kinds, the nil node included,
fails with the value `0` and an error whose message starts with
"unsupported node"; so does a binary node whose left operand is missing. A
node of one of the five kinds is handled by the rule of its kind. -/
theorem evaluate_dispatch (rt : Runtime α ε σ) (scope : Scope α)
    (functions : Functions α ε σ) (st : σ) :
    (∀ node : Node, node.known = false →
        evaluate rt scope functions node st
          = (.ret rt.zero (some (.errorf (unsupportedMessage rt node))), st)
        ∧ StartsWith (unsupportedMessage rt node) "unsupported node")
    ∧ (∀ (op : Token) (y : Node),
        evaluate rt scope functions (.binary .nil op y) st
          = (.ret rt.zero (some (.errorf (unsupportedMessage rt .nil))), st))
    ∧ (∀ name, evaluate rt scope functions (.ident name) st = (evaluateIdent rt name scope, st))
    ∧ (∀ x op y, evaluate rt scope functions (.binary x op y) st
        = evaluateBinary rt op (evaluate rt scope functions x) (evaluate rt scope functions y) st)
    ∧ (∀ x, evaluate rt scope functions (.paren x) st = evaluate rt scope functions x st)
    ∧ (∀ value, evaluate rt scope functions (.basicLit value) st
        = (.ret (rt.parseFloat value).1 (rt.parseFloat value).2, st))
    ∧ (∀ fn args, evaluate rt scope functions (.call fn args) st
        = match evaluateArgs rt scope functions args st with
          | (.values argValues, st1) => evaluateCallExpr rt fn functions argValues st1
          | (.failed err, st1) => (.ret rt.zero (some err), st1)
          | (.panicked p, st1) => (.panic p, st1)) := by
  refine ⟨?_, ?_, ?_, ?_, ?_, ?_, ?_⟩
  · intro node hnode
    have hstart : StartsWith (unsupportedMessage rt node) "unsupported node" := by
      refine ⟨(" " ++ rt.fmtNode node ++ " (type " ++ rt.fmtType node ++ ")").data, ?_⟩
      simp [unsupportedMessage]
    cases node with
    | nil => exact ⟨by simp [evaluate, unsupportedMessage], hstart⟩
    | other kind => exact ⟨by simp [evaluate, unsupportedMessage], hstart⟩
    | _ => simp [Node.known] at hnode
  · intro op y
    simp [evaluate, evaluateBinary, unsupportedMessage]
  · intro name
    simp [evaluate]
  · intro x op y
    simp [evaluate]
  · intro x
    simp [evaluate]
  · intro value
    simp [evaluate]
  · intro fn args
    simp [evaluate]

/-- Witness of C11: the nil node. -/
theorem evaluate_dispatch_witness :
    evaluate (intRuntime Log) emptyScope emptyTable .nil []
      = (.ret 0 (some (.errorf "unsupported node <nil> (type <nil>)")), []) :=
  ((evaluate_dispatch (intRuntime Log) emptyScope emptyTable []).1 .nil (by decide)).1

/-- C12: a literal node returns the pair that `strconv.ParseFloat` returns
on its text, value and error as they are; neither the scope nor the
function table enters the result. -/
theorem evaluate_literal (rt : Runtime α ε σ) (scope : Scope α)
    (functions : Functions α ε σ) (text : String) (st : σ) :
    evaluate rt scope functions (.basicLit text) st
      = (.ret (rt.parseFloat text).1 (rt.parseFloat text).2, st) := by
  simp [evaluate]

/-- C13: on a tree, `Evaluate` returns `(v, nil)` when `evaluate` on the
root returns `v` without error, and `(0, e)` when `evaluate` fails with
`e`, whatever number came with the error. -/
theorem Evaluate_agrees_with_evaluate (rt : Runtime α ε σ) (scope : Scope α)
    (functions : Functions α ε σ) (tree : Expression) (st : σ) :
    (∀ (v : α) (st1 : σ),
        evaluate rt scope functions tree.Ast st = (.ret v none, st1) →
        Evaluate rt (some tree) scope functions st = (.ret v none, st1))
    ∧ (∀ (v : α) (e : GoError ε) (st1 : σ),
        evaluate rt scope functions tree.Ast st = (.ret v (some e), st1) →
        Evaluate rt (some tree) scope functions st = (.ret rt.zero (some e), st1)) := by
  constructor
  · intro v st1 h
    simp [Evaluate, h]
  · intro v e st1 h
    simp [Evaluate, h]

/-- Witness of C13: `fail()` returns `5` with its error from `evaluate`, and
`0` with the same error from `Evaluate`. -/
theorem Evaluate_agrees_with_evaluate_witness :
    evaluate (intRuntime Log) emptyScope maxFailTable (.call (.ident "fail") []) []
      = (.ret 5 (some (.foreign "fail: no result")), [("fail", [])])
    ∧ Evaluate (intRuntime Log) (some ⟨.call (.ident "fail") []⟩) emptyScope maxFailTable []
      = (.ret 0 (some (.foreign "fail: no result")), [("fail", [])]) :=
  ⟨by decide,
    (Evaluate_agrees_with_evaluate (intRuntime Log) emptyScope maxFailTable
      ⟨.call (.ident "fail") []⟩ []).2 5 _ _ (by decide)⟩

/-! ## Division -/

/-- C14: with `float64` division as in IEEE 754, a binary node with operator
`/` whose operands return `l` and `r` without error returns the quotient
without error, also when `r` is a zero: then the quotient is an infinity
when `l` is a number other than zero and a NaN when `l` is a zero. The
result is never an error. -/
theorem evaluate_quo_zero_divisor (rt : Runtime Float64 ε σ) (scope : Scope Float64)
    (functions : Functions Float64 ε σ) (x y : Node) (l r : Float64) (st st1 st2 : σ)
    (hquo : rt.quo = Float64.quo)
    (hl : evaluate rt scope functions x st = (.ret l none, st1))
    (hr : evaluate rt scope functions y st1 = (.ret r none, st2)) :
    evaluate rt scope functions (.binary x token.QUO y) st = (.ret (Float64.quo l r) none, st2)
    ∧ (r.isZero = true → l.isNonzeroNumber = true →
        ∃ s, evaluate rt scope functions (.binary x token.QUO y) st = (.ret (.inf s) none, st2))
    ∧ (r.isZero = true → l.isZero = true →
        evaluate rt scope functions (.binary x token.QUO y) st = (.ret .nan none, st2)) := by
  have h : evaluate rt scope functions (.binary x token.QUO y) st
      = (.ret (Float64.quo l r) none, st2) := by
    simp [evaluate, evaluateBinary, hl, hr, hquo, token.ADD, token.SUB, token.MUL, token.QUO]
  refine ⟨h, ?_, ?_⟩
  · intro hz hn
    rw [h]
    cases r <;> cases l <;> simp_all [Float64.isZero, Float64.isNonzeroNumber, Float64.quo]
  · intro hz hn
    rw [h]
    cases r <;> cases l <;> simp_all [Float64.isZero, Float64.quo]

/-- Witness of C14: `x / y` with `{x: 1, y: 0}` is `+Inf`. -/
theorem evaluate_quo_zero_divisor_witness :
    evaluate (ieeeRuntime Unit) xyScope (fun _ => none)
        (.binary (.ident "x") token.QUO (.ident "y")) ()
      = (.ret (.inf false) none, ()) := by
  have h := (evaluate_quo_zero_divisor (ieeeRuntime Unit) xyScope (fun _ => none)
    (.ident "x") (.ident "y") (.finite 1) (.zero false) () () () rfl
    (by simp [evaluate, evaluateIdent, xyScope])
    (by simp [evaluate, evaluateIdent, xyScope])).1
  rw [h]
  simp [Float64.quo, Float64.signBit]

/-! ## The examples -/

/-- C15: with nothing in scope and no function registered, the tree of
`2 + 3 * 4` returns `14` and the tree of `(2 + 3) * 4` returns `20`, both
without error, and the tree of `z + 1` fails with the error for the
variable `z`, whose message contains `z`. -/
theorem evaluate_examples :
    evaluate (ieeeRuntime Unit) (fun _ => none) (fun _ => none)
        (.binary (.basicLit "2") token.ADD
          (.binary (.basicLit "3") token.MUL (.basicLit "4"))) ()
      = (.ret (.finite 14) none, ())
    ∧ evaluate (ieeeRuntime Unit) (fun _ => none) (fun _ => none)
        (.binary (.paren (.binary (.basicLit "2") token.ADD (.basicLit "3"))) token.MUL
          (.basicLit "4")) ()
      = (.ret (.finite 20) none, ())
    ∧ evaluate (ieeeRuntime Unit) (fun _ => none) (fun _ => none)
        (.binary (.ident "z") token.ADD (.basicLit "1")) ()
      = (.ret (.zero false) (some (.errorf "no value for z in scope map[]")), ())
    ∧ Mentions "no value for z in scope map[]" "z" := by
  refine ⟨?_, ?_, ?_, by decide⟩
  · simp [evaluate, evaluateBinary, ieeeRuntime, parseDigits, Float64.ofRat, Float64.add,
      Float64.mul, token.ADD, token.SUB, token.MUL, token.QUO]
    norm_num
  · simp [evaluate, evaluateBinary, ieeeRuntime, parseDigits, Float64.ofRat, Float64.add,
      Float64.mul, token.ADD, token.SUB, token.MUL, token.QUO]
    norm_num
  · simp [evaluate, evaluateBinary, evaluateIdent, ieeeRuntime]

/-! ## Termination -/

theorem evaluateBinaryFuel_some (rt : Runtime α ε σ) (op : Token)
    (evalX evalY : σ → Result α ε × σ) (st : σ) :
    evaluateBinaryFuel rt op (fun s => some (evalX s)) (fun s => some (evalY s)) st
      = some (evaluateBinary rt op evalX evalY st) := by
  simp only [evaluateBinaryFuel, evaluateBinary]
  rcases hx : evalX st with ⟨⟨l, _ | e⟩ | p, s⟩
  · simp only
    rcases hy : evalY s with ⟨⟨r, _ | e⟩ | p, t⟩
    · simp only
      split_ifs <;> rfl
    · rfl
    · rfl
  · rfl
  · rfl

theorem evaluateArgsFuel_some (rt : Runtime α ε σ) (scope : Scope α)
    (functions : Functions α ε σ) (eval : Node → σ → Option (Result α ε × σ))
    (args : List Node)
    (h : ∀ a ∈ args, ∀ s, eval a s = some (evaluate rt scope functions a s)) (st : σ) :
    evaluateArgsFuel eval args st = some (evaluateArgs rt scope functions args st) := by
  induction args generalizing st with
  | nil => simp [evaluateArgsFuel, evaluateArgs]
  | cons arg rest ih =>
    have ha := h arg (by simp) st
    have hr := fun s => ih (fun a hm => h a (by simp [hm])) s
    simp only [evaluateArgsFuel, evaluateArgs, ha]
    rcases hx : evaluate rt scope functions arg st with ⟨⟨v, _ | e⟩ | p, s⟩
    · simp only [hr]
      rcases hy : evaluateArgs rt scope functions rest s with ⟨vs | e | p, t⟩ <;> rfl
    · rfl
    · rfl

mutual

theorem evaluateFuel_of_depth_lt (rt : Runtime α ε σ) (scope : Scope α)
    (functions : Functions α ε σ) :
    ∀ (node : Node) (fuel : Nat), node.depth < fuel → ∀ st : σ,
      evaluateFuel rt scope functions fuel node st
        = some (evaluate rt scope functions node st)
  | _, 0, h, _ => absurd h (Nat.not_lt_zero _)
  | .nil, _ + 1, _, st => by simp [evaluateFuel, evaluate]
  | .other _, _ + 1, _, st => by simp [evaluateFuel, evaluate]
  | .ident _, _ + 1, _, st => by simp [evaluateFuel, evaluate]
  | .basicLit _, _ + 1, _, st => by simp [evaluateFuel, evaluate]
  | .paren x, fuel + 1, h, st => by
    simp only [evaluateFuel, evaluate]
    exact evaluateFuel_of_depth_lt rt scope functions x fuel
      (by simp only [Node.depth] at h; omega) st
  | .binary x op y, fuel + 1, h, st => by
    simp only [Node.depth] at h
    have hx : evaluateFuel rt scope functions fuel x
        = fun s => some (evaluate rt scope functions x s) :=
      funext (evaluateFuel_of_depth_lt rt scope functions x fuel (by omega))
    have hy : evaluateFuel rt scope functions fuel y
        = fun s => some (evaluate rt scope functions y s) :=
      funext (evaluateFuel_of_depth_lt rt scope functions y fuel (by omega))
    simp only [evaluateFuel, evaluate, hx, hy]
    exact evaluateBinaryFuel_some rt op _ _ st
  | .call fn args, fuel + 1, h, st => by
    simp only [Node.depth] at h
    have ha := evaluateArgsFuel_some rt scope functions
      (evaluateFuel rt scope functions fuel) args
      (evaluateFuel_of_depthArgs_le rt scope functions args fuel (by omega)) st
    simp only [evaluateFuel, evaluate, ha]
    rcases hr : evaluateArgs rt scope functions args st with ⟨vs | e | p, s⟩ <;> rfl

theorem evaluateFuel_of_depthArgs_le (rt : Runtime α ε σ) (scope : Scope α)
    (functions : Functions α ε σ) :
    ∀ (args : List Node) (fuel : Nat), depthArgs args ≤ fuel → ∀ a ∈ args, ∀ st : σ,
      evaluateFuel rt scope functions fuel a st = some (evaluate rt scope functions a st)
  | [], _, _, a, ha, _ => by simp at ha
  | arg :: rest, fuel, h, a, ha, st => by
    simp only [depthArgs] at h
    rcases List.mem_cons.mp ha with rfl | hm
    · exact evaluateFuel_of_depth_lt rt scope functions a fuel (by omega) st
    · exact evaluateFuel_of_depthArgs_le rt scope functions rest fuel (by omega) a hm st

end

/-- C19: `evaluate`, run as the function that calls itself with a budget of
nested calls, never reaches the budget on a tree whose depth is below it:
it ends, and with the result of `evaluate`, a return or a panic. So on
every finite tree the calls of `evaluate` nest no deeper than the tree:
each one is on an operand, a wrapped expression or an argument of the
node of the call before. -/
theorem evaluate_terminates (rt : Runtime α ε σ) (scope : Scope α)
    (functions : Functions α ε σ) (node : Node) (st : σ) (fuel : Nat)
    (hfuel : node.depth < fuel) :
    evaluateFuel rt scope functions fuel node st
      = some (evaluate rt scope functions node st) :=
  evaluateFuel_of_depth_lt rt scope functions node fuel hfuel st

/-- Witness of C19: `min(max(a, b), a) + max(a, b)` has depth `3`; with a
budget of `4` nested calls the evaluation ends with `10`, with a budget of
`3` it does not end. -/
theorem evaluate_terminates_witness :
    minMaxTree.depth = 3
    ∧ evaluateFuel (intRuntime Unit) abScope pureTable 4 minMaxTree ()
        = some (.ret 10 none, ())
    ∧ evaluateFuel (intRuntime Unit) abScope pureTable 3 minMaxTree () = none :=
  ⟨by decide,
    evaluate_terminates (intRuntime Unit) abScope pureTable minMaxTree () 4 (by decide),
    by decide⟩

/-! ## The sequence of invocations -/

theorem evaluateBinary_success (rt : Runtime α ε σ) (op : Token)
    (evalX evalY : σ → Result α ε × σ) (st : σ) (v : α) (st2 : σ)
    (h : evaluateBinary rt op evalX evalY st = (.ret v none, st2)) :
    ∃ l r st1, evalX st = (.ret l none, st1) ∧ evalY st1 = (.ret r none, st2)
      ∧ arithmeticOp op = true := by
  unfold evaluateBinary at h
  rcases hx : evalX st with ⟨rx, sx⟩
  rw [hx] at h
  rcases rx with ⟨l, _ | ex⟩ | px
  · simp only at h
    rcases hy : evalY sx with ⟨ry, sy⟩
    rw [hy] at h
    rcases ry with ⟨r, _ | ey⟩ | py
    · simp only at h
      refine ⟨l, r, sx, rfl, ?_, ?_⟩
      · split_ifs at h <;> simp_all
      · unfold arithmeticOp
        split_ifs at h <;> simp_all
    · simp at h
    · simp at h
  · simp at h
  · simp at h

mutual

theorem traced_evaluate (rt : Runtime α ε (σ × List (String × List α))) (scope : Scope α)
    (functions : Functions α ε σ) :
    ∀ (node : Node) (st : σ) (log : List (String × List α)) (v : α) (st1 : σ)
      (log1 : List (String × List α)),
      evaluate rt scope (traced functions) node (st, log) = (.ret v none, (st1, log1)) →
      ∃ entries, log1 = log ++ entries ∧ entries.map Prod.fst = node.callees
        ∧ entries.length = node.calls
  | .nil, st, log, v, st1, log1, h => by simp [evaluate] at h
  | .other _, st, log, v, st1, log1, h => by simp [evaluate] at h
  | .ident name, st, log, v, st1, log1, h => by
    simp only [evaluate, Prod.mk.injEq] at h
    exact ⟨[], by simp [← h.2], by simp [Node.callees], by simp [Node.calls]⟩
  | .basicLit text, st, log, v, st1, log1, h => by
    simp only [evaluate, Prod.mk.injEq] at h
    exact ⟨[], by simp [← h.2], by simp [Node.callees], by simp [Node.calls]⟩
  | .paren x, st, log, v, st1, log1, h => by
    simp only [evaluate] at h
    simpa [Node.callees, Node.calls] using traced_evaluate rt scope functions x st log v st1 log1 h
  | .binary x op y, st, log, v, st1, log1, h => by
    simp only [evaluate] at h
    obtain ⟨l, r, ⟨sx, lx⟩, hx, hy, _⟩ := evaluateBinary_success rt op _ _ _ _ _ h
    obtain ⟨e1, h1, h2, h3⟩ := traced_evaluate rt scope functions x st log l sx lx hx
    obtain ⟨e2, k1, k2, k3⟩ := traced_evaluate rt scope functions y sx lx r st1 log1 hy
    exact ⟨e1 ++ e2, by simp [k1, h1], by simp [Node.callees, h2, k2],
      by simp [Node.calls, h3, k3]⟩
  | .call fn args, st, log, v, st1, log1, h => by
    simp only [evaluate] at h
    rcases ha : evaluateArgs rt scope (traced functions) args (st, log) with ⟨ra, sa, la⟩
    rw [ha] at h
    cases ra with
    | failed err => simp at h
    | panicked p => simp at h
    | values vs =>
      obtain ⟨e1, h1, h2, h3⟩ := traced_evaluateArgs rt scope functions args st log vs sa la ha
      simp only at h
      cases fn with
      | ident name =>
        simp only [evaluateCallExpr, traced] at h
        cases hf : functions name with
        | none => simp [hf] at h
        | some f =>
          simp only [hf, Prod.mk.injEq] at h
          exact ⟨e1 ++ [(name, vs)], by simp [← h.2.2, h1], by simp [Node.callees, h2],
            by simp [Node.calls, h3]⟩
      | _ => simp [evaluateCallExpr] at h

theorem traced_evaluateArgs (rt : Runtime α ε (σ × List (String × List α))) (scope : Scope α)
    (functions : Functions α ε σ) :
    ∀ (args : List Node) (st : σ) (log : List (String × List α)) (vs : List α) (st1 : σ)
      (log1 : List (String × List α)),
      evaluateArgs rt scope (traced functions) args (st, log) = (.values vs, (st1, log1)) →
      ∃ entries, log1 = log ++ entries ∧ entries.map Prod.fst = calleesArgs args
        ∧ entries.length = callsArgs args
  | [], st, log, vs, st1, log1, h => by
    simp only [evaluateArgs, Prod.mk.injEq] at h
    exact ⟨[], by simp [← h.2], by simp [calleesArgs], by simp [callsArgs]⟩
  | arg :: rest, st, log, vs, st1, log1, h => by
    simp only [evaluateArgs] at h
    rcases hx : evaluate rt scope (traced functions) arg (st, log) with ⟨rx, sx, lx⟩
    rw [hx] at h
    rcases rx with ⟨l, _ | ex⟩ | px
    · simp only at h
      rcases hr : evaluateArgs rt scope (traced functions) rest (sx, lx) with ⟨rr, sr, lr⟩
      rw [hr] at h
      cases rr with
      | failed err => simp at h
      | panicked p => simp at h
      | values ws =>
        simp only [Prod.mk.injEq] at h
        obtain ⟨e1, h1, h2, h3⟩ := traced_evaluate rt scope functions arg st log l sx lx hx
        obtain ⟨e2, k1, k2, k3⟩ :=
          traced_evaluateArgs rt scope functions rest sx lx ws sr lr hr
        exact ⟨e1 ++ e2, by simp [← h.2.2, k1, h1], by simp [calleesArgs, h2, k2],
          by simp [callsArgs, h3, k3]⟩
    · simp at h
    · simp at h

end

/-- C16: when the evaluation of a tree succeeds, the invocations it has made,
in the order in which they were made, are the call nodes of the tree in
left-to-right post-order, one invocation for each call node: the record,
empty at the start, lists the callee names of the call nodes in that order
and has as many entries as the tree has call nodes. -/
theorem invocations_post_order (rt : Runtime α ε (σ × List (String × List α)))
    (scope : Scope α) (functions : Functions α ε σ) (node : Node) (st st1 : σ) (v : α)
    (log : List (String × List α))
    (h : evaluate rt scope (traced functions) node (st, []) = (.ret v none, (st1, log))) :
    log.map Prod.fst = node.callees ∧ log.length = node.calls := by
  obtain ⟨entries, h1, h2, h3⟩ := traced_evaluate rt scope functions node st [] v st1 log h
  simp only [List.nil_append] at h1
  subst h1
  exact ⟨h2, h3⟩

/-- Witness of C16: `min(max(a, b), a) + max(a, b)` with `{a: 3, b: 7}`
invokes `max`, `min`, `max`, in this order: the two occurrences of
`max(a, b)` are two invocations. -/
theorem invocations_post_order_witness :
    evaluate (intRuntime (Unit × List (String × List Int))) abScope (traced pureTable)
        minMaxTree ((), [])
      = (.ret 10 none, ((), [("max", [3, 7]), ("min", [7, 3]), ("max", [3, 7])]))
    ∧ minMaxTree.callees = ["max", "min", "max"]
    ∧ minMaxTree.calls = 3 :=
  ⟨by decide,
    (invocations_post_order (intRuntime (Unit × List (String × List Int))) abScope pureTable
      minMaxTree () () 10 [("max", [3, 7]), ("min", [7, 3]), ("max", [3, 7])]
      (by decide)).1.symm,
    (invocations_post_order (intRuntime (Unit × List (String × List Int))) abScope pureTable
      minMaxTree () () 10 [("max", [3, 7]), ("min", [7, 3]), ("max", [3, 7])]
      (by decide)).2.symm⟩

/-! ## Trees without calls -/

theorem simple_evaluate (rt : Runtime α ε σ) (scope : Scope α) (functions : Functions α ε σ) :
    ∀ (node : Node) (st : σ), node.simple = true →
      (node.sound rt scope = true → ∃ v, evaluate rt scope functions node st = (.ret v none, st))
      ∧ (node.sound rt scope = false →
          ∃ v e, evaluate rt scope functions node st = (.ret v (some e), st))
  | .nil, st, h => by simp [Node.simple] at h
  | .other _, st, h => by simp [Node.simple] at h
  | .call _ _, st, h => by simp [Node.simple] at h
  | .ident name, st, _ => by
    cases hs : scope name <;> simp [Node.sound, evaluate, evaluateIdent, hs]
  | .basicLit text, st, _ => by
    rcases hp : rt.parseFloat text with ⟨v, _ | e⟩ <;> simp [Node.sound, evaluate, hp]
  | .paren x, st, h => by
    simpa [Node.sound, evaluate] using
      simple_evaluate rt scope functions x st (by simpa [Node.simple] using h)
  | .binary x op y, st, h => by
    simp only [Node.simple, Bool.and_eq_true] at h
    have hx := simple_evaluate rt scope functions x st h.1
    have hy := simple_evaluate rt scope functions y st h.2
    cases sx : x.sound rt scope
    · obtain ⟨v, e, hv⟩ := hx.2 sx
      simp [Node.sound, sx, evaluate, evaluateBinary, hv]
    · obtain ⟨l, hl⟩ := hx.1 sx
      cases sy : y.sound rt scope
      · obtain ⟨v, e, hv⟩ := hy.2 sy
        simp [Node.sound, sx, sy, evaluate, evaluateBinary, hl, hv]
      · obtain ⟨r, hr⟩ := hy.1 sy
        cases so : arithmeticOp op
        · have ho := so
          simp only [arithmeticOp, Bool.or_eq_false_iff, decide_eq_false_iff_not] at ho
          simp [Node.sound, sx, sy, so, evaluate, evaluateBinary, hl, hr, ho]
        · have ho := so
          simp only [arithmeticOp, Bool.or_eq_true, decide_eq_true_eq] at ho
          simp only [Node.sound, sx, sy, so, evaluate, evaluateBinary, hl, hr]
          refine ⟨fun _ => ?_, by simp⟩
          split_ifs <;> simp_all

/-- C17: a tree of identifier, literal, parenthesized and binary nodes
returns without error exactly when every identifier in it is a key of the
scope, every literal text in it parses without error and every binary
operator in it is one of `+`, `-`, `*`, `/`. -/
theorem simple_tree_succeeds_iff (rt : Runtime α ε σ) (scope : Scope α)
    (functions : Functions α ε σ) (node : Node) (st : σ)
    (hsimple : node.simple = true) :
    (∃ v st1, evaluate rt scope functions node st = (.ret v none, st1))
      ↔ node.sound rt scope = true := by
  have h := simple_evaluate rt scope functions node st hsimple
  constructor
  · rintro ⟨v, st1, hv⟩
    cases hs : node.sound rt scope
    · obtain ⟨w, e, hw⟩ := h.2 hs
      rw [hw] at hv
      simp at hv
    · rfl
  · intro hs
    obtain ⟨v, hv⟩ := h.1 hs
    exact ⟨v, st, hv⟩

/-- Witness of C17: `(a + 2) * b` with `{a: 3, b: 7}` succeeds. -/
theorem simple_tree_succeeds_iff_witness :
    ∃ v st1, evaluate (intRuntime Log) abScope emptyTable
      (.binary (.paren (.binary (.ident "a") token.ADD (.basicLit "2"))) token.MUL (.ident "b")) []
        = (.ret v none, st1) :=
  (simple_tree_succeeds_iff (intRuntime Log) abScope emptyTable
    (.binary (.paren (.binary (.ident "a") token.ADD (.basicLit "2"))) token.MUL (.ident "b")) []
    (by decide)).mpr (by decide)

/-! ## Scopes that agree on the names of the tree -/

theorem outcome_eq_some (r : Result α ε × σ) (v : α) (st : σ) :
    outcome r = some (v, st) ↔ r = (.ret v none, st) := by
  rcases r with ⟨⟨w, _ | e⟩ | p, s⟩ <;> simp [outcome]

theorem outcome_evaluateBinary_congr (rt : Runtime α ε σ) (op : Token)
    (ex ey fx fy : σ → Result α ε × σ)
    (hx : ∀ st, outcome (ex st) = outcome (fx st))
    (hy : ∀ st, outcome (ey st) = outcome (fy st)) (st : σ) :
    outcome (evaluateBinary rt op ex ey st) = outcome (evaluateBinary rt op fx fy st) := by
  have h1 := hx st
  unfold evaluateBinary
  rcases hex : ex st with ⟨⟨l, _ | e⟩ | p, s⟩ <;>
    rcases hfx : fx st with ⟨⟨l2, _ | e2⟩ | p2, s2⟩ <;>
    simp only [hex, hfx, outcome, reduceCtorEq, Option.some.injEq, Prod.mk.injEq] at h1 ⊢
  obtain ⟨rfl, rfl⟩ := h1
  have h2 := hy s
  rcases hey : ey s with ⟨⟨r, _ | e⟩ | p, t⟩ <;>
    rcases hfy : fy s with ⟨⟨r2, _ | e2⟩ | p2, t2⟩ <;>
    simp only [hey, hfy, outcome, reduceCtorEq, Option.some.injEq, Prod.mk.injEq] at h2 ⊢
  obtain ⟨rfl, rfl⟩ := h2
  rfl

mutual

theorem outcome_evaluate_congr (rt : Runtime α ε σ) (scope1 scope2 : Scope α)
    (functions : Functions α ε σ) :
    ∀ (node : Node), (∀ n ∈ node.names, scope1 n = scope2 n) → ∀ st : σ,
      outcome (evaluate rt scope1 functions node st)
        = outcome (evaluate rt scope2 functions node st)
  | .nil, _, st => by simp [evaluate, outcome]
  | .other _, _, st => by simp [evaluate, outcome]
  | .basicLit text, _, st => by simp [evaluate]
  | .ident name, h, st => by
    have := h name (by simp [Node.names])
    cases hs : scope2 name <;> simp [evaluate, evaluateIdent, this, hs, outcome]
  | .paren x, h, st => by
    simpa [evaluate] using
      outcome_evaluate_congr rt scope1 scope2 functions x (by simpa [Node.names] using h) st
  | .binary x op y, h, st => by
    simp only [evaluate]
    exact outcome_evaluateBinary_congr rt op _ _ _ _
      (outcome_evaluate_congr rt scope1 scope2 functions x
        (fun n hn => h n (by simp [Node.names, hn])))
      (outcome_evaluate_congr rt scope1 scope2 functions y
        (fun n hn => h n (by simp [Node.names, hn]))) st
  | .call fn args, h, st => by
    have ha := outcomeArgs_evaluateArgs_congr rt scope1 scope2 functions args
      (fun n hn => h n (by simp [Node.names, hn])) st
    simp only [evaluate]
    rcases h1 : evaluateArgs rt scope1 functions args st with ⟨vs | e | p, s⟩ <;>
      rcases h2 : evaluateArgs rt scope2 functions args st with ⟨vs2 | e2 | p2, s2⟩ <;>
      simp only [h1, h2, outcomeArgs, outcome, reduceCtorEq, Option.some.injEq,
        Prod.mk.injEq] at ha ⊢
    obtain ⟨rfl, rfl⟩ := ha
    rfl

theorem outcomeArgs_evaluateArgs_congr (rt : Runtime α ε σ) (scope1 scope2 : Scope α)
    (functions : Functions α ε σ) :
    ∀ (args : List Node), (∀ n ∈ namesArgs args, scope1 n = scope2 n) → ∀ st : σ,
      outcomeArgs (evaluateArgs rt scope1 functions args st)
        = outcomeArgs (evaluateArgs rt scope2 functions args st)
  | [], _, st => by simp [evaluateArgs]
  | arg :: rest, h, st => by
    have ha := outcome_evaluate_congr rt scope1 scope2 functions arg
      (fun n hn => h n (by simp [namesArgs, hn])) st
    simp only [evaluateArgs]
    rcases h1 : evaluate rt scope1 functions arg st with ⟨⟨l, _ | e⟩ | p, s⟩ <;>
      rcases h2 : evaluate rt scope2 functions arg st with ⟨⟨l2, _ | e2⟩ | p2, s2⟩ <;>
      simp only [h1, h2, outcomeArgs, outcome, reduceCtorEq, Option.some.injEq,
        Prod.mk.injEq] at ha ⊢
    obtain ⟨rfl, rfl⟩ := ha
    have hr := outcomeArgs_evaluateArgs_congr rt scope1 scope2 functions rest
      (fun n hn => h n (by simp [namesArgs, hn])) s
    rcases k1 : evaluateArgs rt scope1 functions rest s with ⟨vs | e | p, t⟩ <;>
      rcases k2 : evaluateArgs rt scope2 functions rest s with ⟨vs2 | e2 | p2, t2⟩ <;>
      simp only [k1, k2, outcomeArgs, reduceCtorEq, Option.some.injEq,
        Prod.mk.injEq] at hr ⊢
    obtain ⟨rfl, rfl⟩ := hr
    exact ⟨rfl, rfl⟩

end

/-- C18: under two scopes that agree on every identifier name of the tree
(a key of both with the same value, or of neither), evaluation from the
same state returns without error under the one exactly when it does under
the other, and then with the same value and the same state. -/
theorem evaluate_scope_agreement (rt : Runtime α ε σ) (scope1 scope2 : Scope α)
    (functions : Functions α ε σ) (node : Node) (st st1 : σ) (v : α)
    (hagree : ∀ n ∈ node.names, scope1 n = scope2 n) :
    evaluate rt scope1 functions node st = (.ret v none, st1)
      ↔ evaluate rt scope2 functions node st = (.ret v none, st1) := by
  rw [← outcome_eq_some, ← outcome_eq_some,
    outcome_evaluate_congr rt scope1 scope2 functions node hagree st]

/-- Witness of C18: `min(max(a, b), a) + max(a, b)` is `10` under
`{a: 3, b: 7}`, hence under `{a: 3, b: 7, c: 100}`. -/
theorem evaluate_scope_agreement_witness :
    evaluate (intRuntime Unit) abcScope pureTable minMaxTree () = (.ret 10 none, ()) :=
  (evaluate_scope_agreement (intRuntime Unit) abScope abcScope pureTable minMaxTree () () 10
    (by decide)).mp (by decide)

end Claims

end Goexpr
